import Mathlib

/-!
Verification of the nposix OS-abstraction shim (leok7v/nposix).

The development shallowly embeds the numeric and control-flow content of the
repository:

* the seeded 48-bit linear congruential PRNG engine declared by
  `random_generator_if` in `nposix.h`; its implementing translation unit is
  not among the sources at hand, so the engine is modelled from the
  specification text (those definitions carry a `Modelled from the spec`
  doc comment);
* the legacy wrapper over POSIX `random()` found in `nposix.c`
  (`random_generator_as_int32` / `random_generator_as_double`);
* the fail-fast mutex and event wrappers, the `event_timed_wait` deadline
  computation, `thread_sleep`, `time_in_seconds` and `str_to_double`
  from `nposix.c`.

OS calls (`clock_gettime`, `pthread_cond_timedwait`, `pthread_mutex_trylock`,
`random()`, `nanosleep`) are oracles: their observed results are explicit
parameters of the embedded functions.  A return value of `none` models the
fail-fast path (`if_error_fatal` / `assertion` calling `abort()`), on which
the process terminates and nothing is returned to the caller.  Machine
integers are modelled as `Nat`/`Int` with explicit `% 2 ^ w` where the C
code relies on fixed-width wrap-around; C `double` quantities are modelled
exactly over `ℚ`.
-/

namespace Nposix

/-! ### Seeded 48-bit LCG engine (modelled from the spec) -/

/-- Modelled from the spec: the fixed LCG multiplier of the PRNG engine
declared by `random_generator_if` in `nposix.h` (field `uint64_t mult`);
the implementing C file is missing from the sources. -/
def lcg_mult : ℕ := 0x5DEECE66D

/-- Modelled from the spec: the fixed LCG additive constant of the PRNG
engine (field `uint16_t add`). -/
def lcg_add : ℕ := 0xB

/-- Modelled from the spec: the fixed initial value of the process-global
PRNG state (field `const uint64_t initial_seed`). -/
def initial_seed : ℕ := 0x1234ABCD330E

/-- Modelled from the spec: one state advance of the PRNG engine.  The
48-bit state and the 48-bit multiplier are treated as three 16-bit limbs
(low, mid, high); the new state is computed by schoolbook multiplication
with explicit carry propagation between the limbs, the additive constant
entering only the initial accumulator of the lowest limb.  Accumulators
are wide enough that no carry is lost (the classic C implementations use
`unsigned long`). -/
def rand48_step (s : ℕ) : ℕ :=
  let x0 := s % 2 ^ 16
  let x1 := s / 2 ^ 16 % 2 ^ 16
  let x2 := s / 2 ^ 32 % 2 ^ 16
  let a0 := lcg_mult % 2 ^ 16
  let a1 := lcg_mult / 2 ^ 16 % 2 ^ 16
  let a2 := lcg_mult / 2 ^ 32 % 2 ^ 16
  let acc0 := a0 * x0 + lcg_add
  let t0 := acc0 % 2 ^ 16
  let acc1 := acc0 / 2 ^ 16 + a0 * x1 + a1 * x0
  let t1 := acc1 % 2 ^ 16
  let acc2 := acc1 / 2 ^ 16 + a0 * x2 + a1 * x1 + a2 * x0
  let t2 := acc2 % 2 ^ 16
  t0 + t1 * 2 ^ 16 + t2 * 2 ^ 32

/-- Modelled from the spec: `next_seeded_uint32` (analogous to `nrand48`).
Advances the state and returns the nonnegative 31-bit value built from
bits 47..17 of the new state, paired with the new state. -/
def next_seeded_uint32 (seed : ℕ) : ℕ × ℕ :=
  (rand48_step seed / 2 ^ 17, rand48_step seed)

/-- Modelled from the spec: `next_seeded_int32` (analogous to `jrand48`).
Advances the state and returns bits 47..16 of the new state read as a
signed 32-bit value, paired with the new state. -/
def next_seeded_int32 (seed : ℕ) : ℤ × ℕ :=
  (if rand48_step seed / 2 ^ 16 < 2 ^ 31 then ((rand48_step seed / 2 ^ 16 : ℕ) : ℤ)
   else ((rand48_step seed / 2 ^ 16 : ℕ) : ℤ) - 2 ^ 32,
   rand48_step seed)

/-- Modelled from the spec: `next_seeded_double` (analogous to `erand48`).
Advances the state and returns the sum of the three 16-bit words of the
new state scaled by 2^-48, 2^-32 and 2^-16 respectively, paired with the
new state. -/
def next_seeded_double (seed : ℕ) : ℚ × ℕ :=
  ((rand48_step seed % 2 ^ 16 : ℕ) / (2 ^ 48 : ℚ)
     + (rand48_step seed / 2 ^ 16 % 2 ^ 16 : ℕ) / (2 ^ 32 : ℚ)
     + (rand48_step seed / 2 ^ 32 % 2 ^ 16 : ℕ) / (2 ^ 16 : ℚ),
   rand48_step seed)

/-- The sequence of unsigned draws obtained by threading the state through
repeated calls of `next_seeded_uint32`, starting from a given seed. -/
def uint32_stream : ℕ → ℕ → ℕ
  | seed, 0 => (next_seeded_uint32 seed).1
  | seed, n + 1 => uint32_stream (next_seeded_uint32 seed).2 n

/-- The sequence of signed draws obtained by threading the state through
repeated calls of `next_seeded_int32`, starting from a given seed. -/
def int32_stream : ℕ → ℕ → ℤ
  | seed, 0 => (next_seeded_int32 seed).1
  | seed, n + 1 => int32_stream (next_seeded_int32 seed).2 n

/-- The sequence of double draws obtained by threading the state through
repeated calls of `next_seeded_double`, starting from a given seed. -/
def double_stream : ℕ → ℕ → ℚ
  | seed, 0 => (next_seeded_double seed).1
  | seed, n + 1 => double_stream (next_seeded_double seed).2 n

/-! ### Legacy wrapper over POSIX random() (nposix.c lines 51-73) -/

/-- `enum { RANDOM_MAX = (int)((1UL << 31) - 1) }` from nposix.c. -/
def RANDOM_MAX : ℕ := 2 ^ 31 - 1

/-- `random_generator_as_int32` from nposix.c: `(int32_t)random()`.  The
argument `r` is the value returned by the underlying POSIX `random()`
call (an oracle); the cast to `int32_t` is the two-complement reduction
modulo 2^32. -/
def random_generator_as_int32 (r : ℕ) : ℤ :=
  if r % 2 ^ 32 < 2 ^ 31 then ((r % 2 ^ 32 : ℕ) : ℤ)
  else ((r % 2 ^ 32 : ℕ) : ℤ) - 2 ^ 32

/-- `random_generator_as_double` from nposix.c:
`random_generator_as_int32() / (double)RANDOM_MAX`, modelled exactly
over `ℚ`. -/
def random_generator_as_double (r : ℕ) : ℚ :=
  (random_generator_as_int32 r : ℚ) / (RANDOM_MAX : ℚ)

/-! ### Fail-fast wrappers (nposix.c lines 111-194) -/

/-- The `EBUSY` errno value (Linux). -/
def EBUSY : ℤ := 16

/-- The `ETIMEDOUT` errno value (Linux). -/
def ETIMEDOUT : ℤ := 110

/-- The `if_error_fatal` macro from nposix.h: a nonzero result of the
underlying call terminates the process (`none`); otherwise execution
continues (`some ()`). -/
def if_error_fatal (e : ℤ) : Option Unit :=
  if e = 0 then some () else none

/-- `mutex_init` from nposix.c: `if_error_fatal(pthread_mutex_init(m, null))`.
The argument is the result of the underlying OS call. -/
def mutex_init (r : ℤ) : Option Unit := if_error_fatal r

/-- `mutex_lock` from nposix.c: `if_error_fatal(pthread_mutex_lock(m))`. -/
def mutex_lock (r : ℤ) : Option Unit := if_error_fatal r

/-- `mutex_unlock` from nposix.c: `if_error_fatal(pthread_mutex_unlock(m))`. -/
def mutex_unlock (r : ℤ) : Option Unit := if_error_fatal r

/-- `mutex_dispose` from nposix.c: `if_error_fatal(pthread_mutex_destroy(m))`. -/
def mutex_dispose (r : ℤ) : Option Unit := if_error_fatal r

/-- `mutex_try_lock` from nposix.c: any result of `pthread_mutex_trylock`
other than `EBUSY` goes through `if_error_fatal`; the result is then
returned to the caller. -/
def mutex_try_lock (r : ℤ) : Option ℤ :=
  if r ≠ EBUSY then
    match if_error_fatal r with
    | none => none
    | some _ => some r
  else some r

/-- `event_init` from nposix.c: `if_error_fatal(pthread_cond_init(e, null))`. -/
def event_init (r : ℤ) : Option Unit := if_error_fatal r

/-- `event_signal` from nposix.c: `if_error_fatal(pthread_cond_signal(e))`. -/
def event_signal (r : ℤ) : Option Unit := if_error_fatal r

/-- `event_wait` from nposix.c: `if_error_fatal(pthread_cond_wait(e, m))`. -/
def event_wait (r : ℤ) : Option Unit := if_error_fatal r

/-- `event_dispose` from nposix.c: `if_error_fatal(pthread_cond_destroy(e))`. -/
def event_dispose (r : ℤ) : Option Unit := if_error_fatal r

/-! ### event_timed_wait (nposix.c lines 155-182) -/

/-- `NSEC_PER_SEC` = 1,000,000,000. -/
def NSEC_PER_SEC : ℕ := 1000000000

/-- The absolute deadline in nanoseconds computed by `event_timed_wait`:
`now_ns = now.tv_sec * NSEC_PER_SEC + now.tv_nsec`,
`wait_ns = (uint64_t)(seconds * NSEC_PER_SEC)` (truncation of the double
product; exact for nonnegative durations), `abs_ns = now_ns + wait_ns`,
all in `uint64_t` arithmetic, hence the reductions modulo 2^64. -/
def timed_wait_abs_ns (now_sec now_nsec : ℕ) (seconds : ℚ) : ℕ :=
  ((now_sec * NSEC_PER_SEC + now_nsec) % 2 ^ 64
    + Int.toNat ⌊seconds * (NSEC_PER_SEC : ℚ)⌋ % 2 ^ 64) % 2 ^ 64

/-- Observable outcome of one `event_timed_wait` call: the absolute
timespec passed to `pthread_cond_timedwait` (fields `ts_sec`, `ts_nsec`),
the status returned to the caller (`none` models the fatal path on which
the process terminates and nothing is returned), and whether the
spurious-early-wake warning `traceln` was invoked. -/
structure TimedWaitResult where
  ts_sec : ℕ
  ts_nsec : ℕ
  status : Option ℤ
  warned : Bool

/-- `event_timed_wait` from nposix.c.  Oracle arguments: `now_sec`/`now_nsec`
are the `CLOCK_REALTIME` reading taken on entry, `twres` is the result of
the underlying `pthread_cond_timedwait` call, and `t0`/`t1` are the two
`process_clock.time()` readings taken immediately before and after the
wait (so the measured elapsed time is `t1 - t0`).  A `twres` other than
`0` or `ETIMEDOUT` hits `if_error_fatal` before the warning check. -/
def event_timed_wait (now_sec now_nsec : ℕ) (seconds : ℚ) (t0 t1 : ℚ)
    (twres : ℤ) : TimedWaitResult :=
  if twres ≠ 0 ∧ twres ≠ ETIMEDOUT then
    { ts_sec := timed_wait_abs_ns now_sec now_nsec seconds / NSEC_PER_SEC
      ts_nsec := timed_wait_abs_ns now_sec now_nsec seconds % NSEC_PER_SEC
      status := none
      warned := false }
  else
    { ts_sec := timed_wait_abs_ns now_sec now_nsec seconds / NSEC_PER_SEC
      ts_nsec := timed_wait_abs_ns now_sec now_nsec seconds % NSEC_PER_SEC
      status := some twres
      warned := decide (twres = ETIMEDOUT ∧ t1 - t0 < seconds) }

/-! ### time_in_seconds (nposix.c lines 82-101) -/

/-- `time_in_seconds` from nposix.c.  Arguments: `first` is the value of
the static atomic baseline before the call, `sec`/`nsec` the clock
reading delivered by `clock_gettime`.  Returns the value handed to the
caller together with the updated baseline (the compare-exchange stores
the reading when the baseline is still zero). -/
def time_in_seconds (first sec nsec : ℕ) : ℚ × ℕ :=
  ((((sec * NSEC_PER_SEC + nsec) % 2 ^ 64 : ℕ) : ℚ) / (NSEC_PER_SEC : ℚ),
   if first = 0 then (sec * NSEC_PER_SEC + nsec) % 2 ^ 64 else first)

/-! ### thread_sleep (nposix.c lines 196-205) -/

/-- The retry loop of `thread_sleep`.  `c` is the stream of
`process_clock.time()` readings (reading `i` is consumed by the i-th call);
`fuel` bounds the number of iterations modelled.  On normal exit the
result is the index of the reading that satisfied the exit test together
with the list of durations handed to `nanosleep`; `none` means the fuel
ran out before the loop exited. -/
def thread_sleep_loop (deadline : ℚ) (c : ℕ → ℚ) : ℕ → ℕ → Option (ℕ × List ℚ)
  | 0, _ => none
  | fuel + 1, i =>
    if deadline - c i ≤ 0 then some (i, [])
    else
      match thread_sleep_loop deadline c fuel (i + 1) with
      | none => none
      | some (j, reqs) => some (j, (deadline - c i) :: reqs)

/-- `thread_sleep` from nposix.c: the deadline is captured once at entry as
`process_clock.time() + secs` (reading 0), then the loop re-checks the
remaining time with fresh readings 1, 2, ... and re-issues shorter sleeps
until the remaining time is not positive. -/
def thread_sleep (secs : ℚ) (c : ℕ → ℚ) (fuel : ℕ) : Option (ℕ × List ℚ) :=
  thread_sleep_loop (c 0 + secs) c fuel 1

/-- A concrete clock stream used by closed instantiations: reads 0 at
entry and 1 afterwards (nondecreasing). -/
def witness_clock (n : ℕ) : ℚ := if n = 0 then 0 else 1

/-! ### str_to_double (nposix.c lines 20-33) -/

/-- The three control-flow outcomes of `str_to_double`: the `assertion`
aborts the process, or the value is parsed with `sscanf` on a
length-limited format, or with `strtod` on the whole string. -/
inductive StrToDoubleOutcome where
  | aborted : StrToDoubleOutcome
  | scanf_parse (bytes : ℤ) : StrToDoubleOutcome
  | strtod_parse : StrToDoubleOutcome

/-- Control flow of `str_to_double` from nposix.c: first
`assertion(0 <= bytes && bytes < 32, ...)` (violations abort), then
`bytes > 0` selects the length-limited `sscanf` path, otherwise the
`strtod` path. -/
def str_to_double (bytes : ℤ) : StrToDoubleOutcome :=
  if 0 ≤ bytes ∧ bytes < 32 then
    if 0 < bytes then StrToDoubleOutcome.scanf_parse bytes
    else StrToDoubleOutcome.strtod_parse
  else StrToDoubleOutcome.aborted

/-! ### Helper lemmas -/

/-- Carry-propagation identity of the schoolbook limb multiplication with
the concrete limbs of the multiplier `0x5DEECE66D`: for arbitrary limb
inputs the recombined limbs equal the 48-bit LCG recurrence. -/
theorem rand48_limbs_eq (x0 x1 x2 : ℕ) :
    (58989 * x0 + 11) % 65536
      + ((58989 * x0 + 11) / 65536 + 58989 * x1 + 57068 * x0) % 65536 * 65536
      + (((58989 * x0 + 11) / 65536 + 58989 * x1 + 57068 * x0) / 65536
          + 58989 * x2 + 57068 * x1 + 5 * x0) % 65536 * 4294967296
    = ((x0 + x1 * 65536 + x2 * 4294967296) * 25214903917 + 11) % 281474976710656 := by
  omega

/-- Only the low 48 bits of the state influence a state advance. -/
theorem rand48_step_mod48 (s : ℕ) : rand48_step (s % 2 ^ 48) = rand48_step s := by
  have h1 : s % 2 ^ 48 % 2 ^ 16 = s % 2 ^ 16 := by omega
  have h2 : s % 2 ^ 48 / 2 ^ 16 % 2 ^ 16 = s / 2 ^ 16 % 2 ^ 16 := by omega
  have h3 : s % 2 ^ 48 / 2 ^ 32 % 2 ^ 16 = s / 2 ^ 32 % 2 ^ 16 := by omega
  simp only [rand48_step, h1, h2, h3]

/-- `thread_sleep_loop` exits normally only at a reading that has reached
the deadline. -/
theorem thread_sleep_loop_late (deadline : ℚ) (c : ℕ → ℚ) :
    ∀ (fuel i j : ℕ) (reqs : List ℚ),
      thread_sleep_loop deadline c fuel i = some (j, reqs) → deadline ≤ c j := by
  intro fuel
  induction fuel with
  | zero =>
    intro i j reqs h
    simp [thread_sleep_loop] at h
  | succ m ih =>
    intro i j reqs h
    simp only [thread_sleep_loop] at h
    by_cases hc : deadline - c i ≤ 0
    · rw [if_pos hc] at h
      have hj : i = j := by
        have := Option.some.inj h
        exact congrArg Prod.fst this
      subst hj
      linarith
    · rw [if_neg hc] at h
      cases hm : thread_sleep_loop deadline c m (i + 1) with
      | none => rw [hm] at h; exact absurd h (by simp)
      | some p =>
        obtain ⟨j2, reqs2⟩ := p
        rw [hm] at h
        have hj : j2 = j := by
          have := Option.some.inj h
          exact congrArg Prod.fst this
        exact hj ▸ ih (i + 1) j2 reqs2 hm

/-! ### Claim theorems -/

/-- C1: every state advance of the PRNG engine is the 48-bit linear
congruential recurrence: the new state equals
`(old state * 0x5DEECE66D + 0xB) mod 2^48`, with the multiplier and
additive constants fixed, for every 48-bit input state. -/
theorem rand48_step_is_lcg_recurrence (s : ℕ) (h : s < 2 ^ 48) :
    lcg_mult = 0x5DEECE66D ∧ lcg_add = 0xB ∧
    rand48_step s = (s * lcg_mult + lcg_add) % 2 ^ 48 := by
  refine ⟨rfl, rfl, ?_⟩
  have H := rand48_limbs_eq (s % 65536) (s / 65536 % 65536) (s / 4294967296 % 65536)
  have hs : s % 65536 + s / 65536 % 65536 * 65536
      + s / 4294967296 % 65536 * 4294967296 = s := by omega
  rw [hs] at H
  simp only [rand48_step, lcg_mult, lcg_add]
  norm_num
  omega

/-- C1 witness: the recurrence instantiated at the fixed initial seed. -/
theorem rand48_step_is_lcg_recurrence_witness :
    initial_seed < 2 ^ 48 ∧
    rand48_step initial_seed = (initial_seed * lcg_mult + lcg_add) % 2 ^ 48 :=
  ⟨by decide, (rand48_step_is_lcg_recurrence initial_seed (by decide)).2.2⟩

/-- C2 counterexample: at the admissible underlying draw
`random() = RANDOM_MAX = 2^31 - 1` (the documented maximum of the POSIX
`random()` range) the double draw of the wrapper equals exactly 1, so it
is not strictly below 1. -/
theorem as_double_attains_one :
    random_generator_as_double RANDOM_MAX = 1 ∧
    ¬ random_generator_as_double RANDOM_MAX < 1 := by
  have h1 : random_generator_as_double RANDOM_MAX = 1 := by
    unfold random_generator_as_double random_generator_as_int32 RANDOM_MAX
    norm_num
  exact ⟨h1, by rw [h1]; exact lt_irrefl 1⟩

/-- C2 amended: for every value of the underlying POSIX `random()` draw
(which is in `[0, 2^31 - 1]`), the integer draw of the wrapper is in
`[0, 2^31)` and the double draw is in `[0.0, 1.0]` — upper bound 1.0
included, attained exactly at the maximal underlying draw. -/
theorem random_wrapper_ranges (r : ℕ) (h : r ≤ RANDOM_MAX) :
    0 ≤ random_generator_as_int32 r ∧ random_generator_as_int32 r < 2 ^ 31 ∧
    0 ≤ random_generator_as_double r ∧ random_generator_as_double r ≤ 1 := by
  have hlt : r < 2 ^ 31 := by unfold RANDOM_MAX at h; omega
  have hr32 : r % 2 ^ 32 = r := Nat.mod_eq_of_lt (by omega)
  have hi : random_generator_as_int32 r = (r : ℤ) := by
    unfold random_generator_as_int32
    rw [hr32, if_pos hlt]
  have hmax : (0 : ℚ) < (RANDOM_MAX : ℚ) := by norm_num [RANDOM_MAX]
  refine ⟨by rw [hi]; positivity, ?_, ?_, ?_⟩
  · rw [hi]; exact_mod_cast hlt
  · unfold random_generator_as_double
    rw [hi]
    positivity
  · unfold random_generator_as_double
    rw [hi, div_le_one hmax]
    exact_mod_cast h

/-- C2 witness: the amended ranges instantiated at the underlying draw 0. -/
theorem random_wrapper_ranges_witness :
    (0 : ℕ) ≤ RANDOM_MAX ∧ 0 ≤ random_generator_as_int32 0 ∧
    random_generator_as_int32 0 < 2 ^ 31 ∧
    0 ≤ random_generator_as_double 0 ∧ random_generator_as_double 0 ≤ 1 :=
  ⟨by decide, random_wrapper_ranges 0 (by decide)⟩

/-- C3: whenever the underlying wait reports `ETIMEDOUT`, `event_timed_wait`
returns the timed-out status unchanged, and the spurious-early-wake warning
is invoked exactly when the re-measured elapsed time `t1 - t0` is less than
the requested duration (the warning never alters the returned status). -/
theorem timed_wait_spurious_wake_logged (now_sec now_nsec : ℕ)
    (seconds t0 t1 : ℚ) (twres : ℤ) (h : twres = ETIMEDOUT) :
    (event_timed_wait now_sec now_nsec seconds t0 t1 twres).status = some ETIMEDOUT ∧
    ((event_timed_wait now_sec now_nsec seconds t0 t1 twres).warned = true ↔
      t1 - t0 < seconds) := by
  subst h
  unfold event_timed_wait
  rw [if_neg (by simp)]
  refine ⟨rfl, ?_⟩
  simp

/-- C3 witness: a wait for 1 second that reports `ETIMEDOUT` after a
measured elapsed time of 1/2 second keeps the timed-out status and fires
the warning. -/
theorem timed_wait_spurious_wake_logged_witness :
    (event_timed_wait 0 0 1 0 (1 / 2) ETIMEDOUT).status = some ETIMEDOUT ∧
    ((event_timed_wait 0 0 1 0 (1 / 2) ETIMEDOUT).warned = true ↔
      (1 / 2 : ℚ) - 0 < 1) :=
  timed_wait_spurious_wake_logged 0 0 1 0 (1 / 2) ETIMEDOUT rfl

/-- C4: across all mutex and event wrapper operations, the only status
values ever returned to the caller are 0 (success), `EBUSY` from
`mutex_try_lock` and `ETIMEDOUT` from `event_timed_wait`; any other result
of the underlying OS call leads to process termination (`none`) instead of
a return. -/
theorem wrappers_return_only_narrow_status (r : ℤ) :
    (∀ v, mutex_try_lock r = some v → v = 0 ∨ v = EBUSY) ∧
    (∀ (now_sec now_nsec : ℕ) (seconds t0 t1 : ℚ) (st : ℤ),
      (event_timed_wait now_sec now_nsec seconds t0 t1 r).status = some st →
      st = 0 ∨ st = ETIMEDOUT) ∧
    (mutex_init r = some () → r = 0) ∧
    (mutex_lock r = some () → r = 0) ∧
    (mutex_unlock r = some () → r = 0) ∧
    (mutex_dispose r = some () → r = 0) ∧
    (event_init r = some () → r = 0) ∧
    (event_signal r = some () → r = 0) ∧
    (event_wait r = some () → r = 0) ∧
    (event_dispose r = some () → r = 0) := by
  have hfatal : ∀ e : ℤ, if_error_fatal e = some () → e = 0 := by
    intro e he
    unfold if_error_fatal at he
    by_cases h0 : e = 0
    · exact h0
    · rw [if_neg h0] at he; exact absurd he (by simp)
  refine ⟨?_, ?_, hfatal r, hfatal r, hfatal r, hfatal r, hfatal r, hfatal r,
    hfatal r, hfatal r⟩
  · intro v hv
    unfold mutex_try_lock if_error_fatal at hv
    by_cases hb : r = EBUSY
    · rw [if_neg (by simp [hb])] at hv
      exact Or.inr ((Option.some.inj hv).symm.trans hb)
    · rw [if_pos hb] at hv
      by_cases h0 : r = 0
      · rw [if_pos h0] at hv
        exact Or.inl ((Option.some.inj hv).symm.trans h0)
      · rw [if_neg h0] at hv
        exact absurd hv (by simp)
  · intro now_sec now_nsec seconds t0 t1 st hst
    unfold event_timed_wait at hst
    by_cases hc : r ≠ 0 ∧ r ≠ ETIMEDOUT
    · rw [if_pos hc] at hst
      exact absurd hst (by simp)
    · rw [if_neg hc] at hst
      have hr : r = st := Option.some.inj hst
      subst hr
      by_cases h0 : r = 0
      · exact Or.inl h0
      · exact Or.inr (by tauto)

/-- C4 witness: a `pthread_mutex_trylock` result of `EBUSY` is returned to
the caller and is one of the two narrow status values. -/
theorem wrappers_return_only_narrow_status_witness :
    EBUSY = 0 ∨ EBUSY = EBUSY :=
  (wrappers_return_only_narrow_status EBUSY).1 EBUSY (by decide)

/-- C5: for every duration `secs ≥ 0`, if `thread_sleep` returns (exits its
retry loop normally within the modelled fuel), then the clock reading at
which it returns is at least the deadline captured once at entry (entry
reading plus the duration): it never returns earlier.  No upper bound on
lateness is claimed. -/
theorem thread_sleep_never_early (secs : ℚ) (c : ℕ → ℚ) (fuel j : ℕ)
    (reqs : List ℚ) (hd : 0 ≤ secs)
    (h : thread_sleep secs c fuel = some (j, reqs)) :
    c 0 + secs ≤ c j :=
  thread_sleep_loop_late (c 0 + secs) c fuel 1 j reqs h

/-- C5 witness: sleeping for 1/2 with a clock that reads 0 at entry and 1
afterwards exits at reading 1, which is past the deadline 0 + 1/2. -/
theorem thread_sleep_never_early_witness :
    (0 : ℚ) ≤ 1 / 2 ∧
    thread_sleep (1 / 2) witness_clock 2 = some (1, []) ∧
    witness_clock 0 + 1 / 2 ≤ witness_clock 1 := by
  have h : thread_sleep (1 / 2) witness_clock 2 = some (1, []) := by
    unfold thread_sleep
    simp only [thread_sleep_loop, witness_clock]
    norm_num
  exact ⟨by norm_num, h,
    thread_sleep_never_early (1 / 2) witness_clock 2 1 [] (by norm_num) h⟩

/-- C6: for every nonnegative wait duration, the nanosecond-remainder field
of the absolute deadline computed by `event_timed_wait` (wall-clock now
plus duration, converted to nanoseconds, summed, then re-split) lies in
`[0, 1e9)` (the lower bound holds because the field is a natural
number). -/
theorem timed_wait_deadline_nsec_in_range (now_sec now_nsec : ℕ)
    (seconds t0 t1 : ℚ) (twres : ℤ) (h : 0 ≤ seconds) :
    (event_timed_wait now_sec now_nsec seconds t0 t1 twres).ts_nsec < NSEC_PER_SEC := by
  unfold event_timed_wait
  have hpos : 0 < NSEC_PER_SEC := by norm_num [NSEC_PER_SEC]
  by_cases hc : twres ≠ 0 ∧ twres ≠ ETIMEDOUT
  · rw [if_pos hc]
    exact Nat.mod_lt _ hpos
  · rw [if_neg hc]
    exact Nat.mod_lt _ hpos

/-- C6 witness: the remainder bound instantiated at a 1-second wait from
wall-clock reading 0. -/
theorem timed_wait_deadline_nsec_in_range_witness :
    (0 : ℚ) ≤ 1 ∧
    (event_timed_wait 0 0 1 0 0 0).ts_nsec < NSEC_PER_SEC :=
  ⟨by norm_num, timed_wait_deadline_nsec_in_range 0 0 1 0 0 0 (by norm_num)⟩

/-- C7: the seeded draw sequences are deterministic functions of the 48-bit
seed alone: any two seeds that agree on their low 48 bits produce identical
output sequences for the double, signed and unsigned draws at every
position (there is no other hidden input). -/
theorem seeded_streams_deterministic (s1 s2 : ℕ)
    (h : s1 % 2 ^ 48 = s2 % 2 ^ 48) (n : ℕ) :
    uint32_stream s1 n = uint32_stream s2 n ∧
    int32_stream s1 n = int32_stream s2 n ∧
    double_stream s1 n = double_stream s2 n := by
  have hstep : rand48_step s1 = rand48_step s2 := by
    rw [← rand48_step_mod48 s1, ← rand48_step_mod48 s2, h]
  have h1 : next_seeded_uint32 s1 = next_seeded_uint32 s2 := by
    unfold next_seeded_uint32; rw [hstep]
  have h2 : next_seeded_int32 s1 = next_seeded_int32 s2 := by
    unfold next_seeded_int32; rw [hstep]
  have h3 : next_seeded_double s1 = next_seeded_double s2 := by
    unfold next_seeded_double; rw [hstep]
  cases n with
  | zero =>
    exact ⟨by simp only [uint32_stream, h1], by simp only [int32_stream, h2],
      by simp only [double_stream, h3]⟩
  | succ m =>
    exact ⟨by simp only [uint32_stream, h1], by simp only [int32_stream, h2],
      by simp only [double_stream, h3]⟩

/-- C7 witness: the initial seed and the initial seed with an extra bit 48
agree on their low 48 bits and produce the same first unsigned draw. -/
theorem seeded_streams_deterministic_witness :
    initial_seed % 2 ^ 48 = (initial_seed + 2 ^ 48) % 2 ^ 48 ∧
    uint32_stream initial_seed 0 = uint32_stream (initial_seed + 2 ^ 48) 0 :=
  ⟨by decide,
   (seeded_streams_deterministic initial_seed (initial_seed + 2 ^ 48) (by decide) 0).1⟩

/-- C8: for every byte count outside the accepted range (`bytes < 0` or
`bytes ≥ 32`), `str_to_double` aborts the process via its `assertion`
rather than returning; under the precondition `0 ≤ bytes < 32` the abort
branch is unreachable. -/
theorem str_to_double_range_check (bytes : ℤ) :
    ((bytes < 0 ∨ 32 ≤ bytes) → str_to_double bytes = StrToDoubleOutcome.aborted) ∧
    (0 ≤ bytes → bytes < 32 → str_to_double bytes ≠ StrToDoubleOutcome.aborted) := by
  constructor
  · intro h
    unfold str_to_double
    rw [if_neg (by omega)]
  · intro h1 h2
    unfold str_to_double
    rw [if_pos ⟨h1, h2⟩]
    by_cases h0 : 0 < bytes
    · rw [if_pos h0]; exact fun hx => StrToDoubleOutcome.noConfusion hx
    · rw [if_neg h0]; exact fun hx => StrToDoubleOutcome.noConfusion hx

/-- C8 witness: byte count 32 aborts, byte count 5 does not. -/
theorem str_to_double_range_check_witness :
    str_to_double 32 = StrToDoubleOutcome.aborted ∧
    str_to_double 5 ≠ StrToDoubleOutcome.aborted :=
  ⟨(str_to_double_range_check 32).1 (Or.inr (by decide)),
   (str_to_double_range_check 5).2 (by decide) (by decide)⟩

/-- C9: `time_in_seconds` always returns the raw clock reading in
nanoseconds divided by 1e9; the first-call baseline stored by the
compare-exchange is never subtracted, so the returned value is independent
of that stored baseline. -/
theorem time_returns_raw_clock (first sec nsec : ℕ) :
    (time_in_seconds first sec nsec).1
      = (((sec * NSEC_PER_SEC + nsec) % 2 ^ 64 : ℕ) : ℚ) / (NSEC_PER_SEC : ℚ) ∧
    (∀ first2 : ℕ,
      (time_in_seconds first sec nsec).1 = (time_in_seconds first2 sec nsec).1) :=
  ⟨rfl, fun _ => rfl⟩

/-- C10: for every duration `secs ≤ 0` and nondecreasing clock,
`thread_sleep` exits at the very first remaining-time check (reading 1)
with an empty list of issued sleeps: the underlying `nanosleep` is never
invoked. -/
theorem thread_sleep_nonpositive_skips_nanosleep (secs : ℚ) (c : ℕ → ℚ)
    (fuel : ℕ) (hs : secs ≤ 0) (hmono : ∀ n, c n ≤ c (n + 1)) (hf : 1 ≤ fuel) :
    thread_sleep secs c fuel = some (1, []) := by
  obtain ⟨f, rfl⟩ : ∃ f, fuel = f + 1 := ⟨fuel - 1, by omega⟩
  unfold thread_sleep
  simp only [thread_sleep_loop]
  rw [if_pos]
  have := hmono 0
  linarith

/-- C10 witness: a sleep for duration -1 under the nondecreasing clock
exits at reading 1 without any nanosleep request. -/
theorem thread_sleep_nonpositive_skips_nanosleep_witness :
    (-1 : ℚ) ≤ 0 ∧ thread_sleep (-1) witness_clock 3 = some (1, []) :=
  ⟨by norm_num,
   thread_sleep_nonpositive_skips_nanosleep (-1) witness_clock 3 (by norm_num)
     (by
       intro n
       unfold witness_clock
       by_cases h : n = 0
       · subst h; norm_num
       · rw [if_neg h, if_neg (by omega)])
     (by norm_num)⟩

end Nposix
